import Mathlib

/-!
Shallow embedding of the event-relay subsystem of
`rising_mcp_server/src/sse_server.py`: the change poller (`poll_bms_events`),
the fan-out broadcaster (`broadcast_event`), the per-client streaming session
(`sse_events` / `event_generator`), the manual trigger endpoint
(`trigger_event`) and the shutdown path of `lifespan`.

Modelling conventions:
* Python `datetime` values are modelled as `Int` (only their order matters);
  `datetime.fromisoformat(s.replace("Z", "+00:00"))` is modelled by an
  abstract `parse : String → Option Int` argument (`none` = the call raises).
* A Python dict field that may be absent is an `Option`; `dict.get(k, d)`
  becomes `Option.getD`/pattern matching.
* `asyncio.Queue` objects are identified by a `Nat` id; the module-level set
  `active_connections` is a list of ids (or of `Channel`s for the
  broadcaster, which also needs each queue's enqueue outcome).
-/

namespace SseServer

/-- A Change Event as constructed by the producers in `sse_server.py`
(`trigger_event` lines 167-174 and `poll_bms_events` lines 232-244,
254-267, 277-290).  Both producers always set all six keys, so the fields
are total.  `data` is a shallow JSON object (string keys, possibly-null
string values); `timestamp` is the emission time. -/
structure ChangeEvent where
  entity_type : String
  event_type : String
  entity_id : String
  data : List (String × Option String)
  timestamp : Int
  source : String
  deriving Repr, DecidableEq

/-- Python truthiness of an `Optional[str]`: `None` and `""` are falsy. -/
def strOptTruthy : Option String → Bool
  | none => false
  | some s => !s.isEmpty

/-- Line 125: `if filter_entity and event.get("entity_type") != filter_entity:
continue` — `true` when the event is dropped by the entity filter. -/
def entityFilterDrops (filter_entity : Option String) (event : ChangeEvent) : Bool :=
  strOptTruthy filter_entity && (event.entity_type != filter_entity.getD "")

/-- Line 127: `if filter_event and event.get("event_type") != filter_event:
continue` — `true` when the event is dropped by the event filter. -/
def eventFilterDrops (filter_event : Option String) (event : ChangeEvent) : Bool :=
  strOptTruthy filter_event && (event.event_type != filter_event.getD "")

/-- Payload of one server-sent frame (the `"data"` field, before JSON
encoding): the synthetic connection payload (lines 98-105), a heartbeat
timestamp (lines 140-142), or a forwarded Change Event (line 133). -/
inductive FramePayload where
  | connected (filter_entity filter_event : Option String) (timestamp : Int)
  | heartbeat (timestamp : Int)
  | event (e : ChangeEvent)
  deriving Repr, DecidableEq

/-- One frame yielded by `event_generator`: the SSE event name plus payload. -/
structure Frame where
  event : String
  data : FramePayload
  deriving Repr, DecidableEq

/-- Lines 124-134 of `event_generator`: apply the two filters to a dequeued
event; `none` means the loop `continue`s, `some f` means frame `f` is
yielded with the event's `event_type` as the stream event name
(`event.get("event_type", "message")`; producer-built events always carry
the key, so the `"message"` default never fires for them). -/
def forward_decision (filter_entity filter_event : Option String) (e : ChangeEvent) :
    Option Frame :=
  if entityFilterDrops filter_entity e then none
  else if eventFilterDrops filter_event e then none
  else some ⟨e.event_type, FramePayload.event e⟩

/-- An item held in a client queue: either the shutdown sentinel
(`None`, line 38 / line 121) or a real event. -/
inductive QueueItem where
  | sentinel
  | ev (e : ChangeEvent)
  deriving Repr, DecidableEq

/-- What one iteration of the `while True` loop (lines 109-143) observes:
the disconnect check fires, `queue.get` times out (heartbeat), an item is
dequeued, the task is cancelled (`asyncio.CancelledError`, line 145), or
some other exception is raised (line 147). -/
inductive LoopInput where
  | disconnected
  | timeout
  | item (i : QueueItem)
  | cancel
  | raiseExc
  deriving Repr, DecidableEq

/-- How the generator's loop ended. `exhausted` means the supplied input
script ran out while the loop was still live (the generator has not
terminated, so its `finally` block has not yet run). -/
inductive SessionExit where
  | clientGone
  | sentinel
  | cancelled
  | errored
  | exhausted
  deriving Repr, DecidableEq

/-- Outcome of one loop iteration. -/
inductive StepOut where
  | close (ex : SessionExit)
  | emit (f : Frame)
  | skip
  deriving Repr, DecidableEq

/-- One iteration of the `while True` loop of `event_generator`
(lines 109-143), plus the surrounding `except` clauses (lines 145-148):
disconnect breaks; a timeout yields a heartbeat (timestamp abstracted
to `0`); the sentinel breaks; a real event goes through the filters;
cancellation and exceptions terminate the generator. -/
def loop_step (filter_entity filter_event : Option String) : LoopInput → StepOut
  | .disconnected => .close .clientGone
  | .timeout => .emit ⟨"heartbeat", FramePayload.heartbeat 0⟩
  | .item .sentinel => .close .sentinel
  | .item (.ev e) =>
    match forward_decision filter_entity filter_event e with
    | none => .skip
    | some f => .emit f
  | .cancel => .close .cancelled
  | .raiseExc => .close .errored

/-- Run the receive loop of `event_generator` over a script of loop inputs,
collecting the yielded frames and the exit status. -/
def session_loop (filter_entity filter_event : Option String) :
    List LoopInput → List Frame × SessionExit
  | [] => ([], .exhausted)
  | i :: is =>
    match loop_step filter_entity filter_event i with
    | .close ex => ([], ex)
    | .emit f =>
      let rest := session_loop filter_entity filter_event is
      (f :: rest.1, rest.2)
    | .skip => session_loop filter_entity filter_event is

/-- `active_connections.add(q)` (line 91): Python set insertion. -/
def insertConn (q : Nat) (conns : List Nat) : List Nat :=
  if q ∈ conns then conns else q :: conns

/-- `active_connections.discard(q)` (line 151): Python set discard. -/
def discardConn (conns : List Nat) (q : Nat) : List Nat :=
  conns.filter (fun c => c ≠ q)

/-- The registry after the session ends: the `finally` block (lines 149-152)
discards the client queue on every terminating path; if the input script is
merely exhausted the generator is still live and the registry is untouched. -/
def session_final_conns (q : Nat) (conns : List Nat) : SessionExit → List Nat
  | .exhausted => conns
  | _ => discardConn conns q

/-- The whole `sse_events` endpoint (lines 76-154) for one client: create
and register the queue, emit the synthetic `connected` frame, run the
receive loop, and apply the `finally` cleanup.  Returns the frames sent to
the client, the exit status, and the final `active_connections`. -/
def sse_events_run (filter_entity filter_event : Option String) (q : Nat)
    (conns : List Nat) (inputs : List LoopInput) :
    List Frame × SessionExit × List Nat :=
  let conns1 := insertConn q conns
  let sl := session_loop filter_entity filter_event inputs
  (⟨"connected", FramePayload.connected filter_entity filter_event 0⟩ :: sl.1,
   sl.2, session_final_conns q conns1 sl.2)

/-! ## Broadcaster (`broadcast_event`, lines 186-205) -/

/-- Outcome of `await asyncio.wait_for(queue.put(event), timeout=1.0)` for one
channel: success, `asyncio.TimeoutError` (queue full), or any other error. -/
inductive EnqueueResult where
  | ok
  | timeout
  | error
  deriving Repr, DecidableEq

/-- A registered delivery channel as the broadcaster sees it: the queue's
identity plus the outcome its enqueue attempt would have for the event
being broadcast. -/
structure Channel where
  id : Nat
  enq : EnqueueResult
  deriving Repr, DecidableEq

/-- The fan-out pass of `broadcast_event` (lines 192-201): iterate over every
registered channel, collecting the ids delivered to and the ids appended to
the `disconnected` list.  A `TimeoutError` only logs; any other error marks
the channel for removal; neither stops the loop nor propagates. -/
def broadcast_pass : List Channel → List Nat × List Nat
  | [] => ([], [])
  | c :: cs =>
    let (delivered, disconnected) := broadcast_pass cs
    match c.enq with
    | .ok => (c.id :: delivered, disconnected)
    | .timeout => (delivered, disconnected)
    | .error => (delivered, c.id :: disconnected)

/-- `broadcast_event` (lines 186-205): run the fan-out pass over the whole
registry, then discard the channels collected in `disconnected`
(lines 203-205).  Returns the ids the event was enqueued to and the new
registry.  The function is total: no channel behaviour makes it raise. -/
def broadcast_event (conns : List Channel) : List Nat × List Channel :=
  let (delivered, disconnected) := broadcast_pass conns
  (delivered, conns.filter (fun c => !disconnected.contains c.id))

/-! ## Manual trigger endpoint (`trigger_event`, lines 157-183) -/

/-- The JSON body of a `POST /sse/trigger` request; each field is `none`
when the key is absent from the payload. -/
structure TriggerPayload where
  entity_type : Option String
  event_type : Option String
  entity_id : Option String
  data : Option (List (String × Option String))
  deriving Repr, DecidableEq

/-- Event construction in `trigger_event` (lines 167-174):
`data.get(key, default)` for each field, `source = "manual_trigger"`,
timestamp = now. -/
def trigger_event (now : Int) (p : TriggerPayload) : ChangeEvent :=
  { entity_type := p.entity_type.getD "test"
    event_type := p.event_type.getD "test_event"
    entity_id := p.entity_id.getD "test-id"
    data := p.data.getD []
    timestamp := now
    source := "manual_trigger" }

/-! ## Change poller (`poll_bms_events`, lines 208-297) -/

/-- The three entity classes scanned by the poller, in scan order. -/
inductive EntityClass where
  | customer
  | request
  | appointment
  deriving Repr, DecidableEq

/-- One record returned by the BMS list endpoints.  `id` is the mandatory
identifier (`record["id"]`); timestamps and display fields are optional
keys (`none` = absent). -/
structure BmsRecord where
  id : String
  createdAt : Option String
  updatedAt : Option String
  name : Option String
  email : Option String
  status : Option String
  subject : Option String
  assignedTo : Option String
  customerId : Option String
  title : Option String
  scheduledAt : Option String
  deriving Repr, DecidableEq

/-- `record.get("updatedAt", record.get("createdAt"))` (line 229 etc.):
the string handed to `datetime.fromisoformat`, or `none` when both keys are
absent (then `.replace` raises `AttributeError` on `None`). -/
def ts_source (r : BmsRecord) : Option String :=
  match r.updatedAt with
  | some s => some s
  | none => r.createdAt

/-- Parse the record's modification timestamp
(`datetime.fromisoformat(....replace("Z", "+00:00"))`, lines 228-230):
`parse` abstracts the library parser (`none` = it raises); a `none` source
string also raises.  A `none` result aborts the cycle in `poll_bms_events`
because the exception is only caught by the cycle-wide handler
(lines 295-297). -/
def record_mod_ts (parse : String → Option Int) (r : BmsRecord) : Option Int :=
  match ts_source r with
  | none => none
  | some s => parse s

/-- Whether the per-record check at line 231 (`if updated_at > last_check`)
fires: the record's modification timestamp parses and is strictly greater
than the watermark. -/
def emits (parse : String → Option Int) (last_check : Int) (r : BmsRecord) : Bool :=
  match record_mod_ts parse r with
  | none => false
  | some t => t > last_check

/-- `"customer"` / `"request"` / `"appointment"` — the `entity_type`
literal used per class (lines 233, 255, 278). -/
def entity_type_of : EntityClass → String
  | .customer => "customer"
  | .request => "request"
  | .appointment => "appointment"

/-- The fixed per-class `data` projection (lines 236-241, 258-264,
281-287). -/
def projection : EntityClass → BmsRecord → List (String × Option String)
  | .customer, r =>
    [("id", some r.id), ("name", r.name), ("email", r.email), ("status", r.status)]
  | .request, r =>
    [("id", some r.id), ("subject", r.subject), ("status", r.status),
     ("assignedTo", r.assignedTo), ("customerId", r.customerId)]
  | .appointment, r =>
    [("id", some r.id), ("title", r.title), ("status", r.status),
     ("scheduledAt", r.scheduledAt), ("customerId", r.customerId)]

/-- Event construction for one qualifying record (lines 232-244 etc.):
`event_type` is `"updated"` iff the raw `createdAt` and `updatedAt` values
differ (line 234), the id is the record's id, the data is the per-class
projection, the timestamp is the cycle's `current_time`, and the source is
`"polling"`. -/
def mk_poll_event (cls : EntityClass) (current_time : Int) (r : BmsRecord) : ChangeEvent :=
  { entity_type := entity_type_of cls
    event_type := if r.createdAt ≠ r.updatedAt then "updated" else "created"
    entity_id := r.id
    data := projection cls r
    timestamp := current_time
    source := "polling" }

/-- Scan one class's fetched records in order (the `for` loops at lines
226-245, 249-268, 272-291).  Returns the events broadcast (in order) and
`true` when the loop completed; a record whose timestamp cannot be parsed
raises, so the events broadcast so far are kept but the scan (and with it
the cycle) stops with `false`. -/
def process_records (parse : String → Option Int) (cls : EntityClass)
    (last_check current_time : Int) : List BmsRecord → List ChangeEvent × Bool
  | [] => ([], true)
  | r :: rs =>
    match record_mod_ts parse r with
    | none => ([], false)
    | some updated_at =>
      let rest := process_records parse cls last_check current_time rs
      if updated_at > last_check then
        (mk_poll_event cls current_time r :: rest.1, rest.2)
      else rest

/-- The three fetch calls of one poll cycle (`bms_client.get_customers` /
`get_requests` / `get_appointments`); `Except.error ()` models the call
raising (network failure, upstream 5xx, ...). -/
structure FetchResults where
  customers : Except Unit (List BmsRecord)
  requests : Except Unit (List BmsRecord)
  appointments : Except Unit (List BmsRecord)

/-- Result of one iteration of the `while True` loop of `poll_bms_events`:
the events handed to the broadcaster (in emission order), the watermark
after the cycle, and whether the cycle reached line 293
(`last_check = current_time`) without an exception. -/
structure CycleResult where
  events : List ChangeEvent
  last_check : Int
  success : Bool
  deriving Repr, DecidableEq

/-- One cycle of `poll_bms_events` (lines 219-297): scan customers, then
requests, then appointments; any exception (failed fetch or unparseable
timestamp) jumps to the cycle-wide `except` (lines 295-297), leaving the
watermark unchanged; only a cycle that scans all three classes sets
`last_check = current_time` (line 293). -/
def poll_cycle (parse : String → Option Int) (last_check current_time : Int)
    (f : FetchResults) : CycleResult :=
  match f.customers with
  | .error _ => ⟨[], last_check, false⟩
  | .ok cs =>
    let pc := process_records parse .customer last_check current_time cs
    if !pc.2 then ⟨pc.1, last_check, false⟩
    else
      match f.requests with
      | .error _ => ⟨pc.1, last_check, false⟩
      | .ok rqs =>
        let pr := process_records parse .request last_check current_time rqs
        if !pr.2 then ⟨pc.1 ++ pr.1, last_check, false⟩
        else
          match f.appointments with
          | .error _ => ⟨pc.1 ++ pr.1, last_check, false⟩
          | .ok aps =>
            let pa := process_records parse .appointment last_check current_time aps
            if !pa.2 then ⟨pc.1 ++ pr.1 ++ pa.1, last_check, false⟩
            else ⟨pc.1 ++ pr.1 ++ pa.1, current_time, true⟩

/-- The watermark after running a sequence of poll cycles, each given its
sampled `current_time` and fetch results, starting from `last_check = lc`. -/
def run_watermark (parse : String → Option Int) (lc : Int) :
    List (Int × FetchResults) → Int
  | [] => lc
  | (ct, f) :: rest => run_watermark parse (poll_cycle parse lc ct f).last_check rest

/-! ## Process shutdown (`lifespan`, lines 32-39) -/

/-- The shutdown path of `lifespan` (lines 36-39): `await queue.put(None)`
appends the sentinel to every registered channel's (unbounded) queue, then
`active_connections.clear()` empties the registry.  Input and output map
each queue id to its contents. -/
def lifespan_shutdown (conns : List Nat) (queues : Nat → List QueueItem) :
    (Nat → List QueueItem) × List Nat :=
  (fun q => if q ∈ conns then queues q ++ [QueueItem.sentinel] else queues q, [])

/-! ## Concrete fixtures used by witnesses and counterexamples -/

/-- A concrete stand-in for the abstract timestamp parser in closed
statements: recognises a few literals, rejects everything else. -/
def tparse (s : String) : Option Int :=
  if s = "t1" then some 1
  else if s = "t2" then some 2
  else if s = "t3" then some 3
  else if s = "t5" then some 5
  else none

/-- A record with only an id: both timestamps are absent. -/
def badRec : BmsRecord :=
  ⟨"r0", none, none, none, none, none, none, none, none, none, none⟩

/-- A record created and last modified at (parsed) time 3. -/
def goodRec : BmsRecord :=
  { badRec with id := "g1", createdAt := some "t3", updatedAt := some "t3" }

/-- A record created at time 2 and modified at time 3. -/
def touchedRec : BmsRecord :=
  { badRec with id := "g2", createdAt := some "t2", updatedAt := some "t3" }

/-- A record last modified at time 1, before any watermark of interest. -/
def staleRec : BmsRecord :=
  { badRec with id := "s1", createdAt := some "t1", updatedAt := some "t1" }

/-- An event whose `event_type` is none of the documented stream names. -/
def oddEvent : ChangeEvent := ⟨"customer", "boo", "x", [], 0, "manual_trigger"⟩

/-- A well-formed `created` event. -/
def createdEvent : ChangeEvent := ⟨"customer", "created", "c1", [], 0, "polling"⟩

/-! ## Theorems -/

lemma isEmpty_empty_string : "".isEmpty = true := by decide

lemma entityFilterDrops_eq_false_iff (fe : Option String) (e : ChangeEvent) :
    entityFilterDrops fe e = false
      ↔ (fe = none ∨ fe = some "" ∨ fe = some e.entity_type) := by
  cases fe with
  | none => simp [entityFilterDrops, strOptTruthy]
  | some s =>
    simp only [entityFilterDrops, strOptTruthy, Bool.and_eq_false_iff,
      Bool.not_eq_false', String.isEmpty_iff, bne_eq_false_iff_eq,
      Option.some.injEq, reduceCtorEq, false_or, Option.getD_some]
    constructor
    · rintro (h | h)
      · exact Or.inl h
      · exact Or.inr h.symm
    · rintro (h | h)
      · exact Or.inl h
      · exact Or.inr h.symm

lemma eventFilterDrops_eq_false_iff (fv : Option String) (e : ChangeEvent) :
    eventFilterDrops fv e = false
      ↔ (fv = none ∨ fv = some "" ∨ fv = some e.event_type) := by
  cases fv with
  | none => simp [eventFilterDrops, strOptTruthy]
  | some s =>
    simp only [eventFilterDrops, strOptTruthy, Bool.and_eq_false_iff,
      Bool.not_eq_false', String.isEmpty_iff, bne_eq_false_iff_eq,
      Option.some.injEq, reduceCtorEq, false_or, Option.getD_some]
    constructor
    · rintro (h | h)
      · exact Or.inl h
      · exact Or.inr h.symm
    · rintro (h | h)
      · exact Or.inl h
      · exact Or.inr h.symm

/-- C1: an event drawn from the session's queue is forwarded to the client
(yielded as a frame named by its `event_type`) iff the entity filter is
unset (absent or empty, both falsy at line 125) or matches the event's
`entity_type`, and the event filter is unset or matches the event's
`event_type`; when both filters are present and non-empty, both must
match. -/
theorem C1_filter_correctness (fe fv : Option String) (e : ChangeEvent) :
    loop_step fe fv (LoopInput.item (QueueItem.ev e))
        = StepOut.emit ⟨e.event_type, FramePayload.event e⟩
      ↔ (fe = none ∨ fe = some "" ∨ fe = some e.entity_type)
        ∧ (fv = none ∨ fv = some "" ∨ fv = some e.event_type) := by
  rw [← entityFilterDrops_eq_false_iff, ← eventFilterDrops_eq_false_iff]
  simp only [loop_step, forward_decision]
  cases hE : entityFilterDrops fe e <;> cases hV : eventFilterDrops fv e <;> simp_all

/-- C10: an empty-string `filter_entity` or `filter_event` query parameter
is treated exactly like an absent one: the corresponding check at lines
125/127 is skipped (the filter value is falsy), so every event passes it. -/
theorem C10_empty_string_filter_unset (fe fv : Option String) (e : ChangeEvent) :
    forward_decision (some "") fv e = forward_decision none fv e
    ∧ forward_decision fe (some "") e = forward_decision fe none e
    ∧ entityFilterDrops (some "") e = false
    ∧ eventFilterDrops (some "") e = false := by
  refine ⟨?_, ?_, ?_, ?_⟩ <;>
    simp [forward_decision, entityFilterDrops, eventFilterDrops, strOptTruthy,
      isEmpty_empty_string]

/-- C7: whenever the session's generator terminates — client disconnect,
shutdown sentinel, cancellation, or an exception while handling an event —
the `finally` block removes its queue from `active_connections`; the claim
is vacuous only while the generator is still live (`exhausted`). -/
theorem C7_session_cleanup (fe fv : Option String) (q : Nat) (conns : List Nat)
    (inputs : List LoopInput)
    (hterm : (sse_events_run fe fv q conns inputs).2.1 ≠ SessionExit.exhausted) :
    q ∉ (sse_events_run fe fv q conns inputs).2.2 := by
  simp only [sse_events_run] at hterm ⊢
  cases hex : (session_loop fe fv inputs).2 <;>
    simp_all [session_final_conns, discardConn]

theorem C7_session_cleanup_witness :
    (5 : Nat) ∉ (sse_events_run none none 5 [5, 7]
        [LoopInput.item QueueItem.sentinel]).2.2 :=
  C7_session_cleanup none none 5 [5, 7] [LoopInput.item QueueItem.sentinel] (by decide)

lemma session_loop_append_sentinel_exit (fe fv : Option String)
    (events : List ChangeEvent) :
    (session_loop fe fv (events.map (fun e => LoopInput.item (QueueItem.ev e))
        ++ [LoopInput.item QueueItem.sentinel])).2 = SessionExit.sentinel := by
  induction events with
  | nil => simp [session_loop, loop_step]
  | cons e es ih =>
    simp only [List.map_cons, List.cons_append, session_loop, loop_step]
    cases hfd : forward_decision fe fv e <;> simp [hfd, ih]

/-- C8: at shutdown the sentinel is appended to every registered channel's
queue and the registry is cleared; a receive loop that dequeues the
sentinel exits immediately (processing nothing further), so a session whose
pending items are real events followed by the sentinel exits with the
shutdown status after draining them. -/
theorem C8_shutdown_propagation (conns : List Nat) (queues : Nat → List QueueItem)
    (q : Nat) (hq : q ∈ conns) (fe fv : Option String)
    (events : List ChangeEvent) (rest : List LoopInput) :
    (lifespan_shutdown conns queues).1 q = queues q ++ [QueueItem.sentinel]
    ∧ (lifespan_shutdown conns queues).2 = []
    ∧ session_loop fe fv (LoopInput.item QueueItem.sentinel :: rest)
        = ([], SessionExit.sentinel)
    ∧ (session_loop fe fv (events.map (fun e => LoopInput.item (QueueItem.ev e))
          ++ [LoopInput.item QueueItem.sentinel])).2 = SessionExit.sentinel := by
  exact ⟨by simp [lifespan_shutdown, hq], rfl, by simp [session_loop, loop_step],
    session_loop_append_sentinel_exit fe fv events⟩

theorem C8_shutdown_propagation_witness :
    (lifespan_shutdown [3] (fun _ => [])).1 3 = [QueueItem.sentinel]
    ∧ (lifespan_shutdown [3] (fun _ => [])).2 = []
    ∧ session_loop none none (LoopInput.item QueueItem.sentinel :: [])
        = ([], SessionExit.sentinel)
    ∧ (session_loop none none ([createdEvent].map (fun e => LoopInput.item (QueueItem.ev e))
          ++ [LoopInput.item QueueItem.sentinel])).2 = SessionExit.sentinel :=
  C8_shutdown_propagation [3] (fun _ => []) 3 (by decide) none none [createdEvent] []

lemma broadcast_pass_fst (conns : List Channel) :
    (broadcast_pass conns).1
      = (conns.filter (fun c => c.enq = EnqueueResult.ok)).map Channel.id := by
  induction conns with
  | nil => rfl
  | cons c cs ih => cases hc : c.enq <;> simp [broadcast_pass, hc, ih]

lemma broadcast_pass_snd (conns : List Channel) :
    (broadcast_pass conns).2
      = (conns.filter (fun c => c.enq = EnqueueResult.error)).map Channel.id := by
  induction conns with
  | nil => rfl
  | cons c cs ih => cases hc : c.enq <;> simp [broadcast_pass, hc, ih]

lemma mem_filter_ids_iff (p : Channel → Bool) (conns : List Channel)
    (hids : (conns.map Channel.id).Nodup) (c : Channel) (hc : c ∈ conns) :
    c.id ∈ (conns.filter p).map Channel.id ↔ p c = true := by
  constructor
  · intro h
    rw [List.mem_map] at h
    obtain ⟨a, ha, hid⟩ := h
    rw [List.mem_filter] at ha
    have hac : a = c := List.inj_on_of_nodup_map hids ha.1 hc hid
    exact hac ▸ ha.2
  · intro h
    exact List.mem_map_of_mem Channel.id (List.mem_filter.mpr ⟨hc, h⟩)

/-- C3: `broadcast_event` is a total function of the registry and each
channel's enqueue outcome (it never raises).  A channel whose enqueue times
out (full queue) is merely skipped: it does not receive the event but stays
registered.  A channel whose enqueue raises any other error is removed, but
only by the cleanup that runs after the fan-out pass over all channels, so
every other channel whose enqueue succeeds still receives the event
regardless of position.  Delivery order is registry order. -/
theorem C3_broadcast_isolation (conns : List Channel)
    (hids : (conns.map Channel.id).Nodup) :
    (broadcast_event conns).1
        = (conns.filter (fun c => c.enq = EnqueueResult.ok)).map Channel.id
    ∧ (broadcast_event conns).2 = conns.filter (fun c => c.enq ≠ EnqueueResult.error)
    ∧ ∀ c ∈ conns,
        (c.enq = EnqueueResult.ok → c.id ∈ (broadcast_event conns).1)
        ∧ (c.enq = EnqueueResult.timeout →
            c ∈ (broadcast_event conns).2 ∧ c.id ∉ (broadcast_event conns).1)
        ∧ (c.enq = EnqueueResult.error → c ∉ (broadcast_event conns).2) := by
  have hfst : (broadcast_event conns).1
      = (conns.filter (fun c => c.enq = EnqueueResult.ok)).map Channel.id :=
    broadcast_pass_fst conns
  have hsnd : (broadcast_event conns).2
      = conns.filter (fun c => c.enq ≠ EnqueueResult.error) := by
    show conns.filter _ = _
    apply List.filter_congr
    intro c hc
    rw [broadcast_pass_snd]
    by_cases hmem : c.id ∈ (conns.filter
        (fun x => x.enq = EnqueueResult.error)).map Channel.id
    · rw [mem_filter_ids_iff _ conns hids c hc] at hmem
      simp [List.contains, List.elem_eq_mem, mem_filter_ids_iff _ conns hids c hc, hmem]
    · rw [mem_filter_ids_iff _ conns hids c hc] at hmem
      simp [List.contains, List.elem_eq_mem, mem_filter_ids_iff _ conns hids c hc, hmem]
  refine ⟨hfst, hsnd, ?_⟩
  intro c hc
  refine ⟨?_, ?_, ?_⟩
  · intro h
    rw [hfst, mem_filter_ids_iff _ conns hids c hc]
    simp [h]
  · intro h
    constructor
    · rw [hsnd, List.mem_filter]
      exact ⟨hc, by simp [h]⟩
    · rw [hfst, mem_filter_ids_iff _ conns hids c hc]
      simp [h]
  · intro h
    rw [hsnd, List.mem_filter]
    simp [h]

theorem C3_broadcast_isolation_witness :
    (broadcast_event [⟨1, .ok⟩, ⟨2, .timeout⟩, ⟨3, .error⟩, ⟨4, .ok⟩]).1
        = (([⟨1, .ok⟩, ⟨2, .timeout⟩, ⟨3, .error⟩, ⟨4, .ok⟩] : List Channel).filter
            (fun c => c.enq = EnqueueResult.ok)).map Channel.id
    ∧ (broadcast_event [⟨1, .ok⟩, ⟨2, .timeout⟩, ⟨3, .error⟩, ⟨4, .ok⟩]).2
        = ([⟨1, .ok⟩, ⟨2, .timeout⟩, ⟨3, .error⟩, ⟨4, .ok⟩] : List Channel).filter
            (fun c => c.enq ≠ EnqueueResult.error)
    ∧ ∀ c ∈ ([⟨1, .ok⟩, ⟨2, .timeout⟩, ⟨3, .error⟩, ⟨4, .ok⟩] : List Channel),
        (c.enq = EnqueueResult.ok →
            c.id ∈ (broadcast_event [⟨1, .ok⟩, ⟨2, .timeout⟩, ⟨3, .error⟩, ⟨4, .ok⟩]).1)
        ∧ (c.enq = EnqueueResult.timeout →
            c ∈ (broadcast_event [⟨1, .ok⟩, ⟨2, .timeout⟩, ⟨3, .error⟩, ⟨4, .ok⟩]).2
            ∧ c.id ∉ (broadcast_event [⟨1, .ok⟩, ⟨2, .timeout⟩, ⟨3, .error⟩, ⟨4, .ok⟩]).1)
        ∧ (c.enq = EnqueueResult.error →
            c ∉ (broadcast_event [⟨1, .ok⟩, ⟨2, .timeout⟩, ⟨3, .error⟩, ⟨4, .ok⟩]).2) :=
  C3_broadcast_isolation [⟨1, .ok⟩, ⟨2, .timeout⟩, ⟨3, .error⟩, ⟨4, .ok⟩] (by decide)

lemma process_records_success (parse : String → Option Int) (cls : EntityClass)
    (lc ct : Int) (rs : List BmsRecord)
    (h : (process_records parse cls lc ct rs).2 = true) :
    (process_records parse cls lc ct rs).1
      = (rs.filter (emits parse lc)).map (mk_poll_event cls ct) := by
  induction rs with
  | nil => rfl
  | cons r rs ih =>
    cases hm : record_mod_ts parse r with
    | none => simp [process_records, hm] at h
    | some t =>
      by_cases hgt : t > lc
      · simp only [process_records, hm, if_pos hgt] at h ⊢
        simp only [List.filter_cons, emits, hm]
        rw [if_pos (by simpa using hgt)]
        simp [ih h]
      · simp only [process_records, hm, if_neg hgt] at h ⊢
        simp only [List.filter_cons, emits, hm]
        rw [if_neg (by simpa using hgt)]
        exact ih h

lemma process_records_ok_of_parses (parse : String → Option Int) (cls : EntityClass)
    (lc ct : Int) (rs : List BmsRecord)
    (h : ∀ r ∈ rs, record_mod_ts parse r ≠ none) :
    (process_records parse cls lc ct rs).2 = true := by
  induction rs with
  | nil => rfl
  | cons r rs ih =>
    obtain ⟨t, ht⟩ := Option.ne_none_iff_exists'.mp (h r (by simp))
    have ih2 := ih (fun r2 hr2 => h r2 (by simp [hr2]))
    by_cases hgt : t > lc <;>
      simp [process_records, ht, hgt, ih2]

lemma process_records_abort (parse : String → Option Int) (cls : EntityClass)
    (lc ct : Int) (pre : List BmsRecord) (bad : BmsRecord) (post : List BmsRecord)
    (hbad : record_mod_ts parse bad = none)
    (hpre : ∀ r ∈ pre, record_mod_ts parse r ≠ none) :
    process_records parse cls lc ct (pre ++ bad :: post)
      = ((pre.filter (emits parse lc)).map (mk_poll_event cls ct), false) := by
  induction pre with
  | nil => simp [process_records, hbad]
  | cons r pre ih =>
    obtain ⟨t, ht⟩ := Option.ne_none_iff_exists'.mp (hpre r (by simp))
    have ih2 := ih (fun r2 hr2 => hpre r2 (by simp [hr2]))
    by_cases hgt : t > lc <;>
      simp [process_records, ht, hgt, ih2, List.filter_cons, emits]

/-- C2: in a poll cycle whose three scans all complete, the events handed to
the broadcaster are exactly one per fetched record whose parsed modification
timestamp exceeds the watermark (customers, then requests, then
appointments, in fetch order), each built by the fixed per-class
construction: `created` iff the raw `createdAt` equals the raw `updatedAt`,
`entity_id` the record's id, `source = "polling"`, and the per-class data
projection; a record whose timestamp is not past the watermark produces
nothing. -/
theorem C2_poll_emission (parse : String → Option Int) (last_check current_time : Int)
    (cs rqs aps : List BmsRecord)
    (hs : (poll_cycle parse last_check current_time
        ⟨.ok cs, .ok rqs, .ok aps⟩).success = true) :
    (poll_cycle parse last_check current_time ⟨.ok cs, .ok rqs, .ok aps⟩).events
      = (cs.filter (emits parse last_check)).map (mk_poll_event .customer current_time)
        ++ (rqs.filter (emits parse last_check)).map (mk_poll_event .request current_time)
        ++ (aps.filter (emits parse last_check)).map (mk_poll_event .appointment current_time)
    ∧ (∀ cls r,
        (mk_poll_event cls current_time r).event_type
            = (if r.createdAt = r.updatedAt then "created" else "updated")
        ∧ (mk_poll_event cls current_time r).entity_id = r.id
        ∧ (mk_poll_event cls current_time r).source = "polling"
        ∧ (mk_poll_event cls current_time r).data = projection cls r
        ∧ (mk_poll_event cls current_time r).entity_type = entity_type_of cls)
    ∧ (∀ r, emits parse last_check r = true
        ↔ ∃ t, record_mod_ts parse r = some t ∧ t > last_check) := by
  refine ⟨?_, ?_, ?_⟩
  · cases hC : (process_records parse .customer last_check current_time cs).2 with
    | false => simp [poll_cycle, hC] at hs
    | true =>
      cases hR : (process_records parse .request last_check current_time rqs).2 with
      | false => simp [poll_cycle, hC, hR] at hs
      | true =>
        cases hA : (process_records parse .appointment last_check current_time aps).2 with
        | false => simp [poll_cycle, hC, hR, hA] at hs
        | true =>
          simp only [poll_cycle, hC, hR, hA, Bool.not_true, Bool.false_eq_true,
            if_false]
          rw [process_records_success parse .customer last_check current_time cs hC,
            process_records_success parse .request last_check current_time rqs hR,
            process_records_success parse .appointment last_check current_time aps hA]
  · intro cls r
    by_cases h : r.createdAt = r.updatedAt <;>
      simp [mk_poll_event, h]
  · intro r
    cases hm : record_mod_ts parse r <;> simp [emits, hm]

theorem C2_poll_emission_witness :
    (poll_cycle tparse 2 5 ⟨.ok [goodRec, staleRec], .ok [touchedRec], .ok []⟩).events
      = ([goodRec, staleRec].filter (emits tparse 2)).map (mk_poll_event .customer 5)
        ++ ([touchedRec].filter (emits tparse 2)).map (mk_poll_event .request 5)
        ++ (([] : List BmsRecord).filter (emits tparse 2)).map (mk_poll_event .appointment 5)
    ∧ (∀ cls r,
        (mk_poll_event cls 5 r).event_type
            = (if r.createdAt = r.updatedAt then "created" else "updated")
        ∧ (mk_poll_event cls 5 r).entity_id = r.id
        ∧ (mk_poll_event cls 5 r).source = "polling"
        ∧ (mk_poll_event cls 5 r).data = projection cls r
        ∧ (mk_poll_event cls 5 r).entity_type = entity_type_of cls)
    ∧ (∀ r, emits tparse 2 r = true
        ↔ ∃ t, record_mod_ts tparse r = some t ∧ t > 2) :=
  C2_poll_emission tparse 2 5 [goodRec, staleRec] [touchedRec] [] (by decide)

/-- C4, counterexample to the claim as stated: in a cycle whose customer
fetch returns a record with both timestamps absent followed by a record
whose modification timestamp qualifies for emission, the code emits NO
event at all (the parse exception aborts the cycle at the bad record), so
the poller does not continue with the remaining records of the cycle. -/
theorem C4_counterexample :
    record_mod_ts tparse badRec = none
    ∧ emits tparse 1 goodRec = true
    ∧ (poll_cycle tparse 1 5 ⟨.ok [badRec, goodRec], .ok [], .ok []⟩).events = []
    ∧ (poll_cycle tparse 1 5 ⟨.ok [badRec, goodRec], .ok [], .ok []⟩).success = false := by
  decide

/-- C4 as amended: a record whose timestamps are both missing or
unparseable produces no event, and the exception it raises aborts the REST
of the cycle: later records of the same class (and all later classes)
produce no events either, the watermark stays put, and the poll loop
itself survives — the failed cycle behaves as a no-op for the watermark and
the run continues with the following cycles.  Stated for a bad record in
the customer scan and, separately, in the request scan. -/
theorem C4_record_parse_abort (parse : String → Option Int) (lc ct : Int)
    (pre : List BmsRecord) (bad : BmsRecord) (post : List BmsRecord)
    (cs : List BmsRecord) (rqs aps : Except Unit (List BmsRecord))
    (more : List (Int × FetchResults))
    (hbad : record_mod_ts parse bad = none)
    (hpre : ∀ r ∈ pre, record_mod_ts parse r ≠ none)
    (hcs : ∀ r ∈ cs, record_mod_ts parse r ≠ none) :
    (poll_cycle parse lc ct ⟨.ok (pre ++ bad :: post), rqs, aps⟩).events
        = (pre.filter (emits parse lc)).map (mk_poll_event .customer ct)
    ∧ (poll_cycle parse lc ct ⟨.ok (pre ++ bad :: post), rqs, aps⟩).success = false
    ∧ (poll_cycle parse lc ct ⟨.ok (pre ++ bad :: post), rqs, aps⟩).last_check = lc
    ∧ run_watermark parse lc ((ct, ⟨.ok (pre ++ bad :: post), rqs, aps⟩) :: more)
        = run_watermark parse lc more
    ∧ (poll_cycle parse lc ct ⟨.ok cs, .ok (pre ++ bad :: post), aps⟩).events
        = (cs.filter (emits parse lc)).map (mk_poll_event .customer ct)
          ++ (pre.filter (emits parse lc)).map (mk_poll_event .request ct)
    ∧ (poll_cycle parse lc ct ⟨.ok cs, .ok (pre ++ bad :: post), aps⟩).success = false
    ∧ (poll_cycle parse lc ct ⟨.ok cs, .ok (pre ++ bad :: post), aps⟩).last_check = lc := by
  have habortC := process_records_abort parse .customer lc ct pre bad post hbad hpre
  have habortR := process_records_abort parse .request lc ct pre bad post hbad hpre
  have hcsok := process_records_ok_of_parses parse .customer lc ct cs hcs
  refine ⟨?_, ?_, ?_, ?_, ?_, ?_, ?_⟩
  · simp [poll_cycle, habortC]
  · simp [poll_cycle, habortC]
  · simp [poll_cycle, habortC]
  · simp [run_watermark, poll_cycle, habortC]
  · simp [poll_cycle, habortR, hcsok,
      process_records_success parse .customer lc ct cs hcsok]
  · simp [poll_cycle, habortR, hcsok]
  · simp [poll_cycle, habortR, hcsok]

theorem C4_record_parse_abort_witness :
    (poll_cycle tparse 1 5 ⟨.ok ([goodRec] ++ badRec :: [touchedRec]), .ok [], .ok []⟩).events
        = ([goodRec].filter (emits tparse 1)).map (mk_poll_event .customer 5)
    ∧ (poll_cycle tparse 1 5 ⟨.ok ([goodRec] ++ badRec :: [touchedRec]), .ok [],
        .ok []⟩).success = false
    ∧ (poll_cycle tparse 1 5 ⟨.ok ([goodRec] ++ badRec :: [touchedRec]), .ok [],
        .ok []⟩).last_check = 1
    ∧ run_watermark tparse 1
        ((5, ⟨.ok ([goodRec] ++ badRec :: [touchedRec]), .ok [], .ok []⟩) :: [])
        = run_watermark tparse 1 []
    ∧ (poll_cycle tparse 1 5 ⟨.ok [staleRec], .ok ([goodRec] ++ badRec :: [touchedRec]),
        .ok []⟩).events
        = ([staleRec].filter (emits tparse 1)).map (mk_poll_event .customer 5)
          ++ ([goodRec].filter (emits tparse 1)).map (mk_poll_event .request 5)
    ∧ (poll_cycle tparse 1 5 ⟨.ok [staleRec], .ok ([goodRec] ++ badRec :: [touchedRec]),
        .ok []⟩).success = false
    ∧ (poll_cycle tparse 1 5 ⟨.ok [staleRec], .ok ([goodRec] ++ badRec :: [touchedRec]),
        .ok []⟩).last_check = 1 :=
  C4_record_parse_abort tparse 1 5 [goodRec] badRec [touchedRec] [staleRec] (.ok []) (.ok [])
    [] (by decide) (by decide) (by decide)

lemma poll_cycle_cases (parse : String → Option Int) (lc ct : Int) (f : FetchResults) :
    ((poll_cycle parse lc ct f).last_check = ct
        ∧ (poll_cycle parse lc ct f).success = true)
    ∨ ((poll_cycle parse lc ct f).last_check = lc
        ∧ (poll_cycle parse lc ct f).success = false) := by
  rcases f with ⟨cus, rqs, aps⟩
  rcases cus with u | cs
  · right; simp [poll_cycle]
  cases hC : (process_records parse .customer lc ct cs).2 with
  | false => right; simp [poll_cycle, hC]
  | true =>
  rcases rqs with u | rq
  · right; simp [poll_cycle, hC]
  cases hR : (process_records parse .request lc ct rq).2 with
  | false => right; simp [poll_cycle, hC, hR]
  | true =>
  rcases aps with u | ap
  · right; simp [poll_cycle, hC, hR]
  cases hA : (process_records parse .appointment lc ct ap).2 with
  | false => right; simp [poll_cycle, hC, hR, hA]
  | true => left; simp [poll_cycle, hC, hR, hA]

lemma poll_cycle_success_fetches (parse : String → Option Int) (lc ct : Int)
    (f : FetchResults) (h : (poll_cycle parse lc ct f).success = true) :
    (∃ cs, f.customers = .ok cs) ∧ (∃ rqs, f.requests = .ok rqs)
    ∧ (∃ aps, f.appointments = .ok aps) := by
  rcases f with ⟨cus, rqs, aps⟩
  rcases cus with u | cs
  · simp [poll_cycle] at h
  cases hC : (process_records parse .customer lc ct cs).2 with
  | false => simp [poll_cycle, hC] at h
  | true =>
  rcases rqs with u | rq
  · simp [poll_cycle, hC] at h
  cases hR : (process_records parse .request lc ct rq).2 with
  | false => simp [poll_cycle, hC, hR] at h
  | true =>
  rcases aps with u | ap
  · simp [poll_cycle, hC, hR] at h
  exact ⟨⟨cs, rfl⟩, ⟨rq, rfl⟩, ⟨ap, rfl⟩⟩

lemma run_watermark_mono (parse : String → Option Int) :
    ∀ (cycles : List (Int × FetchResults)) (lc : Int),
      (lc :: cycles.map Prod.fst).Pairwise (fun a b => a ≤ b) →
      lc ≤ run_watermark parse lc cycles := by
  intro cycles
  induction cycles with
  | nil =>
    intro lc _
    simp [run_watermark]
  | cons c rest ih =>
    intro lc h
    rcases c with ⟨ct, f⟩
    rw [List.map_cons, List.pairwise_cons] at h
    obtain ⟨h1, h2⟩ := h
    have hlcct : lc ≤ ct := h1 ct (by simp)
    rcases poll_cycle_cases parse lc ct f with ⟨he, _⟩ | ⟨he, _⟩
    · have hrest : ct ≤ run_watermark parse ct rest := ih ct h2
      calc lc ≤ ct := hlcct
        _ ≤ run_watermark parse ct rest := hrest
        _ = run_watermark parse (poll_cycle parse lc ct f).last_check rest := by rw [he]
        _ = run_watermark parse lc ((ct, f) :: rest) := rfl
    · have hpair : (lc :: rest.map Prod.fst).Pairwise (fun a b => a ≤ b) := by
        rw [List.pairwise_cons] at h2 ⊢
        exact ⟨fun b hb => h1 b (List.mem_cons_of_mem ct hb), h2.2⟩
      have hrest : lc ≤ run_watermark parse lc rest := ih lc hpair
      calc lc ≤ run_watermark parse lc rest := hrest
        _ = run_watermark parse (poll_cycle parse lc ct f).last_check rest := by rw [he]
        _ = run_watermark parse lc ((ct, f) :: rest) := rfl

/-- C5: the watermark is written only by a cycle that scanned all three
entity classes without an exception (then it becomes that cycle's
`current_time`, sampled after the previous watermark); a failed cycle
leaves it unchanged; hence across any run of cycles whose sampled times
are ordered at or after the initial watermark, the watermark never
decreases. -/
theorem C5_watermark_monotone (parse : String → Option Int) (lc ct : Int)
    (f : FetchResults) (cycles : List (Int × FetchResults))
    (hchain : (lc :: cycles.map Prod.fst).Pairwise (fun a b => a ≤ b)) :
    ((poll_cycle parse lc ct f).success = true →
        (poll_cycle parse lc ct f).last_check = ct
        ∧ (∃ cs, f.customers = .ok cs) ∧ (∃ rqs, f.requests = .ok rqs)
        ∧ (∃ aps, f.appointments = .ok aps))
    ∧ ((poll_cycle parse lc ct f).success = false →
        (poll_cycle parse lc ct f).last_check = lc)
    ∧ (lc ≤ ct → lc ≤ (poll_cycle parse lc ct f).last_check)
    ∧ lc ≤ run_watermark parse lc cycles := by
  refine ⟨?_, ?_, ?_, run_watermark_mono parse cycles lc hchain⟩
  · intro hs
    rcases poll_cycle_cases parse lc ct f with ⟨he, _⟩ | ⟨_, hf⟩
    · exact ⟨he, poll_cycle_success_fetches parse lc ct f hs⟩
    · rw [hs] at hf
      exact absurd hf (by simp)
  · intro hf
    rcases poll_cycle_cases parse lc ct f with ⟨_, ht⟩ | ⟨he, _⟩
    · rw [hf] at ht
      exact absurd ht (by simp)
    · exact he
  · intro hlc
    rcases poll_cycle_cases parse lc ct f with ⟨he, _⟩ | ⟨he, _⟩
    · rw [he]; exact hlc
    · rw [he]

theorem C5_watermark_monotone_witness :
    ((poll_cycle tparse 1 2 ⟨.ok [], .ok [], .ok []⟩).success = true →
        (poll_cycle tparse 1 2 ⟨.ok [], .ok [], .ok []⟩).last_check = 2
        ∧ (∃ cs, (FetchResults.mk (.ok []) (.ok []) (.ok [])).customers = .ok cs)
        ∧ (∃ rqs, (FetchResults.mk (.ok []) (.ok []) (.ok [])).requests = .ok rqs)
        ∧ (∃ aps, (FetchResults.mk (.ok []) (.ok []) (.ok [])).appointments = .ok aps))
    ∧ ((poll_cycle tparse 1 2 ⟨.ok [], .ok [], .ok []⟩).success = false →
        (poll_cycle tparse 1 2 ⟨.ok [], .ok [], .ok []⟩).last_check = 1)
    ∧ ((1 : Int) ≤ 2 → (1 : Int) ≤ (poll_cycle tparse 1 2 ⟨.ok [], .ok [], .ok []⟩).last_check)
    ∧ (1 : Int) ≤ run_watermark tparse 1
        [(2, ⟨.ok [], .ok [], .ok []⟩), (3, ⟨.error (), .ok [], .ok []⟩)] :=
  C5_watermark_monotone tparse 1 2 ⟨.ok [], .ok [], .ok []⟩
    [(2, ⟨.ok [], .ok [], .ok []⟩), (3, ⟨.error (), .ok [], .ok []⟩)]
    (by simp [List.pairwise_cons])

/-- C6, counterexample to the claim as stated: the trigger endpoint applies
its defaults only when a payload key is ABSENT, so a request body carrying
`entity_id: ""` (with `event_type: "created"`) produces a Change Event
whose `event_type` is neither heartbeat nor connected yet whose
`entity_id` is empty. -/
theorem C6_counterexample :
    (trigger_event 0 ⟨some "customer", some "created", some "", none⟩).event_type
        ≠ "heartbeat"
    ∧ (trigger_event 0 ⟨some "customer", some "created", some "", none⟩).event_type
        ≠ "connected"
    ∧ (trigger_event 0 ⟨some "customer", some "created", some "", none⟩).entity_id
        = "" := by
  decide

/-- C6 as amended: every poller-constructed event carries a non-empty
`entity_type` (a fixed class literal) and a non-empty `entity_id` whenever
the fetched record's id is non-empty; every trigger-constructed event
carries a non-empty `entity_type` and `entity_id` whenever the payload's
`entity_type` and `entity_id` fields are, when present, non-empty (the
defaults `"test"` and `"test-id"` applied for absent keys are non-empty). -/
theorem C6_nonempty_identity (cls : EntityClass) (ct now : Int) (r : BmsRecord)
    (p : TriggerPayload)
    (hr : r.id ≠ "")
    (hpe : ∀ s, p.entity_type = some s → s ≠ "")
    (hpi : ∀ s, p.entity_id = some s → s ≠ "") :
    (mk_poll_event cls ct r).entity_type ≠ ""
    ∧ (mk_poll_event cls ct r).entity_id ≠ ""
    ∧ (trigger_event now p).entity_type ≠ ""
    ∧ (trigger_event now p).entity_id ≠ "" := by
  refine ⟨?_, ?_, ?_, ?_⟩
  · cases cls <;> simp [mk_poll_event, entity_type_of]
  · simpa [mk_poll_event] using hr
  · cases hp : p.entity_type with
    | none => simp [trigger_event, hp]
    | some s => simpa [trigger_event, hp] using hpe s hp
  · cases hp : p.entity_id with
    | none => simp [trigger_event, hp]
    | some s => simpa [trigger_event, hp] using hpi s hp

theorem C6_nonempty_identity_witness :
    (mk_poll_event .customer 5 goodRec).entity_type ≠ ""
    ∧ (mk_poll_event .customer 5 goodRec).entity_id ≠ ""
    ∧ (trigger_event 0 ⟨some "customer", some "created", some "c9", none⟩).entity_type ≠ ""
    ∧ (trigger_event 0 ⟨some "customer", some "created", some "c9", none⟩).entity_id ≠ "" :=
  C6_nonempty_identity .customer 5 0 goodRec ⟨some "customer", some "created", some "c9", none⟩
    (by decide) (by intro s hs; cases hs; decide) (by intro s hs; cases hs; decide)

/-- The documented stream event names (spec §6). -/
def allowed_event_names : List String :=
  ["connected", "heartbeat", "created", "updated", "deleted", "test_event"]

/-- C9, counterexample to the claim as stated: an event whose `event_type`
is an arbitrary string — constructible by the trigger endpoint, whose
payload `event_type` is passed through unvalidated — is forwarded by an
unfiltered session as a frame named by that string, which is outside the
documented name set. -/
theorem C9_counterexample :
    ((sse_events_run none none 0 [] [LoopInput.item (QueueItem.ev oddEvent)]).1.map
        Frame.event) = ["connected", "boo"]
    ∧ "boo" ∉ allowed_event_names
    ∧ trigger_event 0 ⟨some "customer", some "boo", some "x", some []⟩
        = { oddEvent with data := [], source := "manual_trigger" } := by
  decide

lemma forward_decision_some (fe fv : Option String) (e : ChangeEvent) (f : Frame)
    (h : forward_decision fe fv e = some f) :
    f = ⟨e.event_type, FramePayload.event e⟩ := by
  by_cases hE : entityFilterDrops fe e = true
  · simp [forward_decision, hE] at h
  · by_cases hV : eventFilterDrops fv e = true
    · simp [forward_decision, hE, hV] at h
    · simp [forward_decision, hE, hV] at h
      exact h.symm

lemma session_loop_frame_names (fe fv : Option String) (inputs : List LoopInput) :
    ∀ f ∈ (session_loop fe fv inputs).1,
      f.event = "heartbeat"
      ∨ ∃ e, LoopInput.item (QueueItem.ev e) ∈ inputs ∧ f.event = e.event_type := by
  induction inputs with
  | nil => simp [session_loop]
  | cons i is ih =>
    intro f hf
    match i with
    | .disconnected => simp [session_loop, loop_step] at hf
    | .cancel => simp [session_loop, loop_step] at hf
    | .raiseExc => simp [session_loop, loop_step] at hf
    | .item .sentinel => simp [session_loop, loop_step] at hf
    | .timeout =>
      simp only [session_loop, loop_step] at hf
      rcases List.mem_cons.mp hf with hhd | htl
      · left; rw [hhd]
      · rcases ih f htl with hb | ⟨e, he, hev⟩
        · exact Or.inl hb
        · exact Or.inr ⟨e, List.mem_cons_of_mem _ he, hev⟩
    | .item (.ev e0) =>
      simp only [session_loop, loop_step] at hf
      cases hfd : forward_decision fe fv e0 with
      | none =>
        rw [hfd] at hf
        rcases ih f hf with hb | ⟨e, he, hev⟩
        · exact Or.inl hb
        · exact Or.inr ⟨e, List.mem_cons_of_mem _ he, hev⟩
      | some fr =>
        rw [hfd] at hf
        rcases List.mem_cons.mp hf with hhd | htl
        · right
          refine ⟨e0, List.mem_cons_self _ _, ?_⟩
          rw [hhd, forward_decision_some fe fv e0 fr hfd]
        · rcases ih f htl with hb | ⟨e, he, hev⟩
          · exact Or.inl hb
          · exact Or.inr ⟨e, List.mem_cons_of_mem _ he, hev⟩

/-- C9 as amended: every frame's event name is `connected`, `heartbeat`, or
the `event_type` of an event that was delivered to the session's queue;
poller-built events only ever carry `created` or `updated`, so whenever
every event reaching the queue has its `event_type` in
{created, updated, deleted, test_event} — true of all poller traffic, and
of trigger traffic whose payload `event_type`, if present, is one of those
— every emitted frame name lies in the documented set
{connected, heartbeat, created, updated, deleted, test_event}.  An
arbitrary trigger payload `event_type` is forwarded verbatim as the frame
name, which is what the counterexample exhibits. -/
theorem C9_frame_names (fe fv : Option String) (q : Nat) (conns : List Nat)
    (inputs : List LoopInput)
    (hin : ∀ e, LoopInput.item (QueueItem.ev e) ∈ inputs →
        e.event_type ∈ (["created", "updated", "deleted", "test_event"] : List String)) :
    (∀ f ∈ (sse_events_run fe fv q conns inputs).1, f.event ∈ allowed_event_names)
    ∧ (∀ cls ct r,
        (mk_poll_event cls ct r).event_type ∈ (["created", "updated"] : List String)) := by
  constructor
  · intro f hf
    simp only [sse_events_run] at hf
    rcases List.mem_cons.mp hf with hhd | htl
    · rw [hhd]; simp [allowed_event_names]
    · rcases session_loop_frame_names fe fv inputs f htl with hb | ⟨e, he, hev⟩
      · rw [hb]; simp [allowed_event_names]
      · have := hin e he
        rw [hev]
        simp only [allowed_event_names, List.mem_cons] at this ⊢
        tauto
  · intro cls ct r
    by_cases h : r.createdAt = r.updatedAt <;> simp [mk_poll_event, h]

theorem C9_frame_names_witness :
    (∀ f ∈ (sse_events_run none none 0 []
        [LoopInput.timeout, LoopInput.item (QueueItem.ev createdEvent)]).1,
      f.event ∈ allowed_event_names)
    ∧ (∀ cls ct r,
        (mk_poll_event cls ct r).event_type ∈ (["created", "updated"] : List String)) :=
  C9_frame_names none none 0 []
    [LoopInput.timeout, LoopInput.item (QueueItem.ev createdEvent)]
    (by intro e he; simp at he; rw [he]; decide)

end SseServer
